import Mathlib

/-!
# Verification of the ringring-rs voice-activity reporter

Shallow embedding of the data model and the section/scale computations of the
`ringring-rs` repository, together with proofs settling the frozen claims
about its specification.

Modelling conventions:
* `tokio::time::Instant` is modelled as `Nat` (seconds on a monotonic clock);
  `std::time::Duration` as `Nat` (seconds).  Subtraction of instants in the
  source goes through tokio's saturating `duration_since`, which `Nat`
  subtraction models exactly.
* `f32` ratios (`as_secs_f32` followed by division) are modelled by exact
  rationals `ℚ`; all concrete values appearing in the claims are small and
  exactly representable.
* Rust methods taking `&mut self` and returning `Result<T, E>` mutate only on
  the success path in this code base; they are embedded as functions
  `State → Except E State` (participant level) or, where the claim is about
  the state after a failed call, as `State → Except E α × State` returning the
  state as of the `return` statement (room level).
* `tiny_skia::Pixmap` and `tiny_skia::Color` are opaque to every claim; they
  are modelled as `Nat` tokens.
-/

/-! ## model/activity.rs -/

/-- `VoiceStateFlags` from `src/model/activity.rs`. -/
structure VoiceStateFlags where
  is_muted : Bool
  is_deafened : Bool
  is_sharing_screen : Bool
deriving DecidableEq, Repr

/-- `ActivityError` from `src/model/activity.rs`. -/
inductive ActivityError where
  | AlreadyStarted
  | AlreadyEnded
  | NoActiveActivity
deriving DecidableEq, Repr

/-- `Activity` from `src/model/activity.rs`.  The Rust field `end` is a Lean
keyword, so it is written `end_`. -/
structure Activity where
  start : Nat
  end_ : Option Nat
  flags : VoiceStateFlags
deriving DecidableEq, Repr

/-- `Activity::start_at`. -/
def Activity.start_at (start : Nat) (flags : VoiceStateFlags) : Activity :=
  { start := start, end_ := none, flags := flags }

/-- `Activity::end_at`: fails with `AlreadyEnded` when `end` is already set,
otherwise sets `end := now`. -/
def Activity.end_at (a : Activity) (now : Nat) : Except ActivityError Activity :=
  match a.end_ with
  | some _ => .error .AlreadyEnded
  | none => .ok { a with end_ := some now }

/-- `Activity::is_ended`. -/
def Activity.is_ended (a : Activity) : Bool := a.end_.isSome

/-- `Activity::is_ongoing`. -/
def Activity.is_ongoing (a : Activity) : Bool := a.end_.isNone

/-- `Activity::is_following`: `prev.end.map_or(false, |end| end == self.start)`. -/
def Activity.is_following (a prev : Activity) : Bool :=
  match prev.end_ with
  | some e => e == a.start
  | none => false

/-! ## model/participant.rs -/

/-- `Participant` from `src/model/participant.rs`. -/
structure Participant where
  user_id : Nat
  name : String
  face : String
  history : List Activity
deriving DecidableEq, Repr

/-- `Participant::new`. -/
def Participant.new (user_id : Nat) (name face : String) : Participant :=
  { user_id := user_id, name := name, face := face, history := [] }

/-- `Participant::is_connected`: the last history entry exists and is ongoing. -/
def Participant.is_connected (p : Participant) : Bool :=
  match p.history.getLast? with
  | some a => a.is_ongoing
  | none => false

/-- `Participant::connect`: fails with `AlreadyStarted` when connected,
otherwise pushes a fresh open activity. -/
def Participant.connect (p : Participant) (now : Nat) (flags : VoiceStateFlags) :
    Except ActivityError Participant :=
  if p.is_connected then .error .AlreadyStarted
  else .ok { p with history := p.history ++ [Activity.start_at now flags] }

/-- `Participant::disconnect`: `history.last_mut().ok_or(NoActiveActivity)?`
then `last.end_at(now)?`.  Mutating the last element in place is embedded as
`dropLast ++ [sealed]`. -/
def Participant.disconnect (p : Participant) (now : Nat) :
    Except ActivityError Participant :=
  match p.history.getLast? with
  | none => .error .NoActiveActivity
  | some last =>
    match last.end_at now with
    | .error e => .error e
    | .ok sealed => .ok { p with history := p.history.dropLast ++ [sealed] }

/-- `Participant::update`.  The source first checks `is_connected()` (returning
`NoActiveActivity` otherwise) and then takes the last element, which is
guaranteed to exist; here `is_connected` is inlined over `getLast?` so that the
source's unreachable `expect` has no counterpart.  If the tail's flags equal
`flags` the call is a no-op; otherwise the tail is sealed at `now` and a fresh
open activity starting at `now` is pushed. -/
def Participant.update (p : Participant) (now : Nat) (flags : VoiceStateFlags) :
    Except ActivityError Participant :=
  match p.history.getLast? with
  | none => .error .NoActiveActivity
  | some last =>
    if last.is_ongoing = false then .error .NoActiveActivity
    else if last.flags == flags then .ok p
    else
      match last.end_at now with
      | .error e => .error e
      | .ok sealed =>
        .ok { p with history := p.history.dropLast ++ [sealed, Activity.start_at now flags] }

/-! ## model/room.rs -/

/-- `RoomError` from `src/model/room.rs` (the unused `AlreadyDisposed` variant
is included for completeness). -/
inductive RoomError where
  | ParticipantNotFound
  | Activity (err : ActivityError)
  | AlreadyDisposed
deriving DecidableEq, Repr

/-- `RoomStatus` from `src/model/room.rs`. -/
inductive RoomStatus where
  | Occupied
  | Idle
deriving DecidableEq, Repr

/-- `IDLE_TIMEOUT_SECS` from `src/model/room.rs`. -/
def IDLE_TIMEOUT_SECS : Nat := 60

/-- `Room` from `src/model/room.rs`.  `Timestamp` (wall clock) is modelled as
`Nat`. -/
structure Room where
  guild_id : Nat
  channel_id : Nat
  timestamp : Nat
  created_at : Nat
  participants : List Participant
  expires_at : Option Nat
deriving DecidableEq, Repr

/-- `Room::new`. -/
def Room.new (guild_id channel_id created_at timestamp : Nat) : Room :=
  { guild_id := guild_id, channel_id := channel_id, timestamp := timestamp,
    created_at := created_at, participants := [], expires_at := none }

/-- Embedding of `find_participant_mut` followed by a fallible mutation of the
found participant: `none` when no participant matches `pred` (Rust's
`None` from `iter_mut().find(..)`), otherwise the result of `f` on the first
match, with the successor list rebuilt around the updated participant. -/
def updateFirst (pred : Participant → Bool)
    (f : Participant → Except ActivityError Participant) :
    List Participant → Option (Except ActivityError (List Participant))
  | [] => none
  | p :: rest =>
    if pred p then some ((f p).map (fun q => q :: rest))
    else (updateFirst pred f rest).map (fun r => r.map (fun l => p :: l))

/-- `Room::get_status` (over a participant list): `Occupied` iff some
participant is connected. -/
def Room.get_status (ps : List Participant) : RoomStatus :=
  if ps.any (fun p => p.is_connected) then .Occupied else .Idle

/-- `Room::handle_connect`.  The pair's second component is the room as of the
`return` statement: the source returns errors before any mutation of `self`,
so every error branch carries `r` unchanged.  Note that for an existing
participant the source calls only `participant.connect` — the stored `name`
and `face` are not touched. -/
def Room.handle_connect (r : Room) (now uid : Nat) (name face : String)
    (flags : VoiceStateFlags) : Except RoomError Unit × Room :=
  match updateFirst (fun p => p.user_id == uid) (fun p => p.connect now flags) r.participants with
  | some (.error e) => (.error (.Activity e), r)
  | some (.ok ps) => (.ok (), { r with participants := ps, expires_at := none })
  | none =>
    match (Participant.new uid name face).connect now flags with
    | .error e => (.error (.Activity e), r)
    | .ok q => (.ok (), { r with participants := r.participants ++ [q], expires_at := none })

/-- `Room::handle_disconnect`: find the participant (else
`ParticipantNotFound`), seal its tail, then compute the status on the mutated
room; on `Idle` set `expires_at := now + IDLE_TIMEOUT_SECS`. -/
def Room.handle_disconnect (r : Room) (now uid : Nat) :
    Except RoomError RoomStatus × Room :=
  match updateFirst (fun p => p.user_id == uid) (fun p => p.disconnect now) r.participants with
  | none => (.error .ParticipantNotFound, r)
  | some (.error e) => (.error (.Activity e), r)
  | some (.ok ps) =>
    let status := Room.get_status ps
    if status = .Idle then
      (.ok status, { r with participants := ps, expires_at := some (now + IDLE_TIMEOUT_SECS) })
    else (.ok status, { r with participants := ps })

/-- `Room::handle_update`: find the participant (else `ParticipantNotFound`)
and delegate to `Participant::update`. -/
def Room.handle_update (r : Room) (now uid : Nat) (flags : VoiceStateFlags) :
    Except RoomError Unit × Room :=
  match updateFirst (fun p => p.user_id == uid) (fun p => p.update now flags) r.participants with
  | none => (.error .ParticipantNotFound, r)
  | some (.error e) => (.error (.Activity e), r)
  | some (.ok ps) => (.ok (), { r with participants := ps })

/-! ## service/renderer/view.rs -/

/-- `Tick` from `src/service/renderer/view.rs`: an interval (seconds) plus the
`with_sec` formatting flag. -/
structure Tick where
  interval : Nat
  with_sec : Bool
deriving DecidableEq, Repr

/-- `Tick::secs_grain`. -/
def Tick.secs_grain (secs : Nat) : Tick := { interval := secs, with_sec := true }

/-- `Tick::mins_grain` (`Duration::from_mins`). -/
def Tick.mins_grain (mins : Nat) : Tick := { interval := 60 * mins, with_sec := false }

/-- `Tick::hours_grain` (`Duration::from_hours`). -/
def Tick.hours_grain (hours : Nat) : Tick := { interval := 3600 * hours, with_sec := false }

/-- `FillStyle` from `src/service/renderer/view.rs`. -/
inductive FillStyle where
  | Active
  | Muted
  | Deafened
deriving DecidableEq, Repr

/-- `FillStyle::from_flags`: `Deafened` wins over `Muted` wins over `Active`. -/
def FillStyle.from_flags (flags : VoiceStateFlags) : FillStyle :=
  match flags.is_deafened, flags.is_muted with
  | true, _ => .Deafened
  | _, true => .Muted
  | _, _ => .Active

/-- `VoiceSection` from `src/service/renderer/view.rs`; the `f32` ratios are
modelled as exact rationals. -/
structure VoiceSection where
  start_ratio : ℚ
  end_ratio : ℚ
  fill_style : FillStyle
deriving DecidableEq, Repr

/-- `StreamingSection` from `src/service/renderer/view.rs`. -/
structure StreamingSection where
  start_ratio : ℚ
  end_ratio : ℚ
deriving DecidableEq, Repr

/-- The ratio `(t - start) / duration_sec` computed at every section emission
site (`as_secs_f32` division modelled in `ℚ`). -/
def rat (start : Nat) (d : ℚ) (t : Nat) : ℚ := ((t - start : Nat) : ℚ) / d

/-! ## service/renderer/transformer.rs -/

namespace Transformer

/-- The `FRAMES` constant of `calculate_auto_scale` in
`src/service/renderer/transformer.rs`, in seconds. -/
def FRAMES : List Nat :=
  [60, 300, 600, 1800, 3600, 7200, 10800, 14400, 21600, 28800, 43200, 86400]

/-- `calculate_auto_scale` from `src/service/renderer/transformer.rs`: return
`start + frame` for the first frame with `duration < frame` (the `for` loop
returns at the first hit, embedded as `find?`), else
`start + from_hours(24 * (1 + duration_days))`. -/
def calculate_auto_scale (start end_ : Nat) : Nat :=
  let duration := end_ - start
  match FRAMES.find? (fun frame => decide (duration < frame)) with
  | some frame => start + frame
  | none => start + 3600 * (24 * (1 + duration / (24 * 60 * 60)))

/-- The `TICKS` constant of `choose_suitable_tics` in
`src/service/renderer/transformer.rs`. -/
def TICKS : List Tick :=
  [Tick.secs_grain 10, Tick.mins_grain 1, Tick.mins_grain 2, Tick.mins_grain 5,
   Tick.mins_grain 10, Tick.mins_grain 15, Tick.mins_grain 30, Tick.hours_grain 1,
   Tick.hours_grain 2, Tick.hours_grain 4, Tick.hours_grain 6, Tick.hours_grain 12]

/-- `choose_suitable_tics` from `src/service/renderer/transformer.rs`: the
first tick with `duration_secs / tick.interval < 10` (integer division), else
`hours_grain(24)`. -/
def choose_suitable_tics (duration : Nat) : Tick :=
  match TICKS.find? (fun tick => decide (duration / tick.interval < 10)) with
  | some tick => tick
  | none => Tick.hours_grain 24

/-- `convert_to_voice_sections` from `src/service/renderer/transformer.rs`:
one section per activity, `[start_ratio, end_ratio]` relative to
`end - start`, with the open tail closed at `now`. -/
def convert_to_voice_sections (start now end_ : Nat) (history : List Activity) :
    List VoiceSection :=
  let duration_sec : ℚ := ((end_ - start : Nat) : ℚ)
  history.map (fun current =>
    { start_ratio := rat start duration_sec current.start
      end_ratio := rat start duration_sec (current.end_.getD now)
      fill_style := FillStyle.from_flags current.flags })

/-- The loop of `convert_to_streaming_sections` in
`src/service/renderer/transformer.rs`.  The loop body performs two sequential
checks on each `current` activity — (1) if a run is open and `current` is not
streaming, close it at `current.start`; if no run is open and `current` is
streaming, open one at `current`; (2) if a run is open after (1) and the
iteration is the last one or the next activity is not `is_following(current)`,
close the run at `current.end ?? now` — which this embedding flattens into one
match tree on (run state, streaming flag, lookahead). -/
def streamingLoop (now start : Nat) (d : ℚ) :
    Option Activity → List Activity → List StreamingSection
  | _, [] => []
  | none, cur :: rest =>
    if cur.flags.is_sharing_screen then
      match rest with
      | [] =>
        { start_ratio := rat start d cur.start, end_ratio := rat start d (cur.end_.getD now) } ::
          streamingLoop now start d none rest
      | b :: _ =>
        if b.is_following cur then streamingLoop now start d (some cur) rest
        else
          { start_ratio := rat start d cur.start, end_ratio := rat start d (cur.end_.getD now) } ::
            streamingLoop now start d none rest
    else streamingLoop now start d none rest
  | some s, cur :: rest =>
    if cur.flags.is_sharing_screen then
      match rest with
      | [] =>
        { start_ratio := rat start d s.start, end_ratio := rat start d (cur.end_.getD now) } ::
          streamingLoop now start d none rest
      | b :: _ =>
        if b.is_following cur then streamingLoop now start d (some s) rest
        else
          { start_ratio := rat start d s.start, end_ratio := rat start d (cur.end_.getD now) } ::
            streamingLoop now start d none rest
    else
      { start_ratio := rat start d s.start, end_ratio := rat start d cur.start } ::
        streamingLoop now start d none rest

/-- `convert_to_streaming_sections` from
`src/service/renderer/transformer.rs`: run the loop with no open run. -/
def convert_to_streaming_sections (start now end_ : Nat) (history : List Activity) :
    List StreamingSection :=
  streamingLoop now start ((end_ - start : Nat) : ℚ) none history

end Transformer

/-! ## service/report.rs -/

namespace Report

/-- `EntryVisual` from `src/service/report.rs`; the pixmap and colors are
opaque tokens. -/
structure EntryVisual where
  avatar : Nat
  active_color : Nat
  inactive_color : Nat
  streaming_color : Nat
deriving DecidableEq, Repr

/-- `RoomDTO` from `src/service/report.rs`. -/
structure RoomDTO where
  created_at : Nat
  timestamp : Nat
  channel_id : Nat
  participants : List Participant
deriving DecidableEq, Repr

/-- `RoomDTO::from_room`. -/
def RoomDTO.from_room (room : Room) : RoomDTO :=
  { created_at := room.created_at, timestamp := room.timestamp,
    channel_id := room.channel_id, participants := room.participants }

/-- `ReportServiceError` from `src/service/report.rs` (the rendering variant's
payload is irrelevant to the claims and is dropped). -/
inductive ReportServiceError where
  | GenericError (msg : String)
  | RenderingError
deriving DecidableEq, Repr

/-- `TimelineEntry` as constructed in `ReportService::create_timeline`. -/
structure TimelineEntry where
  avatar : Nat
  voice_sections : List VoiceSection
  streaming_sections : List StreamingSection
  active_color : Nat
  inactive_color : Nat
  streaming_color : Nat
deriving DecidableEq, Repr

/-- `Timeline` as constructed in `ReportService::create_timeline`
(`created_timestamp`/`terminated_timestamp` are wall-clock `Nat`s). -/
structure Timeline where
  created_at : Nat
  terminated_at : Nat
  created_timestamp : Nat
  terminated_timestamp : Nat
  indicator : Option Nat
  entries : List TimelineEntry
  tick : Tick
deriving DecidableEq, Repr

/-- The `FRAMES` constant of the duplicate `calculate_auto_scale` in
`src/service/report.rs` (lines 338-351). -/
def FRAMES : List Nat :=
  [60, 300, 600, 1800, 3600, 7200, 10800, 14400, 21600, 28800, 43200, 86400]

/-- Duplicate of `calculate_auto_scale` in `src/service/report.rs`
(lines 337-364), textually identical to the transformer's copy. -/
def calculate_auto_scale (start end_ : Nat) : Nat :=
  let duration := end_ - start
  match FRAMES.find? (fun frame => decide (duration < frame)) with
  | some frame => start + frame
  | none => start + 3600 * (24 * (1 + duration / (24 * 60 * 60)))

/-- The `TICKS` constant of the duplicate `choose_suitable_tics` in
`src/service/report.rs` (lines 367-380). -/
def TICKS : List Tick :=
  [Tick.secs_grain 10, Tick.mins_grain 1, Tick.mins_grain 2, Tick.mins_grain 5,
   Tick.mins_grain 10, Tick.mins_grain 15, Tick.mins_grain 30, Tick.hours_grain 1,
   Tick.hours_grain 2, Tick.hours_grain 4, Tick.hours_grain 6, Tick.hours_grain 12]

/-- Duplicate of `choose_suitable_tics` in `src/service/report.rs`
(lines 366-391). -/
def choose_suitable_tics (duration : Nat) : Tick :=
  match TICKS.find? (fun tick => decide (duration / tick.interval < 10)) with
  | some tick => tick
  | none => Tick.hours_grain 24

/-- Duplicate of `convert_to_voice_sections` in `src/service/report.rs`
(lines 260-279). -/
def convert_to_voice_sections (start now end_ : Nat) (history : List Activity) :
    List VoiceSection :=
  let duration_sec : ℚ := ((end_ - start : Nat) : ℚ)
  history.map (fun current =>
    { start_ratio := rat start duration_sec current.start
      end_ratio := rat start duration_sec (current.end_.getD now)
      fill_style := FillStyle.from_flags current.flags })

/-- The loop of the duplicate `convert_to_streaming_sections` in
`src/service/report.rs` (lines 281-335), embedded exactly like
`Transformer.streamingLoop`. -/
def streamingLoop (now start : Nat) (d : ℚ) :
    Option Activity → List Activity → List StreamingSection
  | _, [] => []
  | none, cur :: rest =>
    if cur.flags.is_sharing_screen then
      match rest with
      | [] =>
        { start_ratio := rat start d cur.start, end_ratio := rat start d (cur.end_.getD now) } ::
          streamingLoop now start d none rest
      | b :: _ =>
        if b.is_following cur then streamingLoop now start d (some cur) rest
        else
          { start_ratio := rat start d cur.start, end_ratio := rat start d (cur.end_.getD now) } ::
            streamingLoop now start d none rest
    else streamingLoop now start d none rest
  | some s, cur :: rest =>
    if cur.flags.is_sharing_screen then
      match rest with
      | [] =>
        { start_ratio := rat start d s.start, end_ratio := rat start d (cur.end_.getD now) } ::
          streamingLoop now start d none rest
      | b :: _ =>
        if b.is_following cur then streamingLoop now start d (some s) rest
        else
          { start_ratio := rat start d s.start, end_ratio := rat start d (cur.end_.getD now) } ::
            streamingLoop now start d none rest
    else
      { start_ratio := rat start d s.start, end_ratio := rat start d cur.start } ::
        streamingLoop now start d none rest

/-- Duplicate of `convert_to_streaming_sections` in `src/service/report.rs`. -/
def convert_to_streaming_sections (start now end_ : Nat) (history : List Activity) :
    List StreamingSection :=
  streamingLoop now start ((end_ - start : Nat) : ℚ) none history

/-- The per-participant body of `ReportService::create_timeline`: fetch (or
build) the participant's visual — any failure aborts the whole loop with
`GenericError` (`return Err(..)` in the source) — and otherwise push a
`TimelineEntry` built from the visual and the two section lists.  The
fallible avatar fetch/decode pipeline is abstracted as the oracle `fetch`. -/
def buildEntries (fetch : Nat → Except String EntryVisual)
    (created_at now terminated_at : Nat) :
    List Participant → Except ReportServiceError (List TimelineEntry)
  | [] => .ok []
  | participant :: rest =>
    match fetch participant.user_id with
    | .error err => .error (.GenericError err)
    | .ok visual =>
      (buildEntries fetch created_at now terminated_at rest).map (fun entries =>
        { avatar := visual.avatar
          voice_sections := convert_to_voice_sections created_at now terminated_at participant.history
          streaming_sections := convert_to_streaming_sections created_at now terminated_at participant.history
          active_color := visual.active_color
          inactive_color := visual.inactive_color
          streaming_color := visual.streaming_color } :: entries)

/-- `ReportService::create_timeline` (lines 84-217 of
`src/service/report.rs`): compute `terminated_at` by auto-scale, build one
entry per participant (aborting on the first visual failure), and assemble the
`Timeline`. -/
def create_timeline (fetch : Nat → Except String EntryVisual)
    (now now_timestamp : Nat) (room : RoomDTO) :
    Except ReportServiceError Timeline :=
  let terminated_at := calculate_auto_scale room.created_at now
  match buildEntries fetch room.created_at now terminated_at room.participants with
  | .error e => .error e
  | .ok entries =>
    .ok { created_at := room.created_at
          terminated_at := terminated_at
          created_timestamp := room.timestamp
          terminated_timestamp := now_timestamp
          indicator := some now
          entries := entries
          tick := choose_suitable_tics (terminated_at - room.created_at) }

end Report

/-! ## service/tracker.rs -/

/-- `Track` from `src/service/tracker.rs`. -/
structure Track where
  message_id : Nat
  last_updated_at : Nat
deriving DecidableEq, Repr

/-- `Tracker` from `src/service/tracker.rs`: `HashMap<ChannelId, Track>`
modelled as an association list with at most one binding per key (the
operations below preserve that, and only `get_track`-visible behaviour
matters). -/
structure Tracker where
  tracks : List (Nat × Track)
deriving DecidableEq, Repr

/-- `Tracker::new`. -/
def Tracker.new : Tracker := { tracks := [] }

/-- `Tracker::get_track`: map lookup. -/
def Tracker.get_track (tr : Tracker) (channel_id : Nat) : Option Track :=
  (tr.tracks.find? (fun e => e.1 == channel_id)).map Prod.snd

/-- `Tracker::add_track`: insert (replacing any binding for the key) a track
with `last_updated_at := Instant::now()`; the ambient clock is passed as
`now`. -/
def Tracker.add_track (tr : Tracker) (channel_id message_id now : Nat) : Tracker :=
  { tracks := (channel_id, { message_id := message_id, last_updated_at := now }) ::
      tr.tracks.filter (fun e => ! (e.1 == channel_id)) }

/-- `Tracker::update_track`: refresh `last_updated_at` of the binding for the
key, if any. -/
def Tracker.update_track (tr : Tracker) (channel_id now : Nat) : Tracker :=
  { tracks := tr.tracks.map (fun e =>
      if e.1 == channel_id then (e.1, { e.2 with last_updated_at := now }) else e) }

/-- `Tracker::remove`: delete the binding for the key. -/
def Tracker.remove (tr : Tracker) (channel_id : Nat) : Tracker :=
  { tracks := tr.tracks.filter (fun e => ! (e.1 == channel_id)) }

/-- The outbound RPC (if any) issued by one report emission. -/
inductive RpcAction where
  | no_rpc
  | edit (message_id : Nat)
  | send
deriving DecidableEq, Repr

/-- `ReportService::send_room_report` (src/service/report.rs lines 219-257).
The function takes no `ongoing` flag and never reads or writes the `Tracker`
(which `src/` declares but never uses): it builds the timeline via
`create_timeline(..)?` (any failure aborts with no RPC), hands the timeline to
the blocking render-and-PNG-encode task — abstracted here as the oracle
`render`, whose `generate_image`/`encode_png`/join failures all abort before
any RPC — and then unconditionally issues a send-message RPC to the report
channel, whose outcome (`rpc_ok`, with `rpc_err` the transport error text)
decides between `Ok(())` and `GenericError`. -/
def Report.send_room_report (fetch : Nat → Except String Report.EntryVisual)
    (render : Report.Timeline → Except Report.ReportServiceError Nat)
    (rpc_ok : Bool) (rpc_err : String) (now now_timestamp : Nat)
    (room : Report.RoomDTO) : RpcAction × Except Report.ReportServiceError Unit :=
  match Report.create_timeline fetch now now_timestamp room with
  | .error e => (.no_rpc, .error e)
  | .ok timeline =>
    match render timeline with
    | .error e => (.no_rpc, .error e)
    | .ok _encoded_image =>
      (.send, if rpc_ok then .ok () else .error (.GenericError rpc_err))

/-! ## Specification-side definitions

Definitions in this section follow the words of the specification (not the
source); they exist to be compared with the source embeddings above. -/

/-- The claims' history invariant on one consecutive pair: `a.end` is set and
`a.end ≤ b.start` (spec §8, invariants 1-2). -/
def adjOK (a b : Activity) : Prop :=
  a.end_.isSome = true ∧ a.end_.getD 0 ≤ b.start

instance (a b : Activity) : Decidable (adjOK a b) := by
  unfold adjOK; infer_instance

/-- All instants recorded in a history are at most `t`. -/
def boundedBy (h : List Activity) (t : Nat) : Prop :=
  ∀ a ∈ h, a.start ≤ t ∧ ∀ e, a.end_ = some e → e ≤ t

/-- One observed call of the participant state machine. -/
inductive POp where
  | connect (now : Nat) (flags : VoiceStateFlags)
  | disconnect (now : Nat)
  | update (now : Nat) (flags : VoiceStateFlags)
deriving DecidableEq, Repr

/-- The `now` argument of a call. -/
def POp.time : POp → Nat
  | .connect now _ => now
  | .disconnect now => now
  | .update now _ => now

/-- Apply one call to a participant: on success the mutated participant, on
error the participant unchanged (the source's methods mutate nothing before
an error return). -/
def Participant.applyOp (p : Participant) (op : POp) : Participant :=
  match op with
  | .connect now flags => match p.connect now flags with | .ok q => q | .error _ => p
  | .disconnect now => match p.disconnect now with | .ok q => q | .error _ => p
  | .update now flags => match p.update now flags with | .ok q => q | .error _ => p

mutual

/-- Streaming runs per the specification's words (spec §4.6): scan the history
for the first streaming activity after a non-streaming or disjoint
predecessor; it opens a run. -/
def scanRuns (now : Nat) : List Activity → List (Nat × Nat)
  | [] => []
  | a :: rest =>
    if a.flags.is_sharing_screen then inRun now a.start a rest
    else scanRuns now rest

/-- A run that opened at time `openStart` and currently extends through `cur`
closes at the first of: the start of the next adjacent activity with
`sharing_screen = false`; the end of `cur` when the next activity is disjoint
(a gap in the connection) or when `cur` is the tail (`now` when the tail is
still open).  A streaming activity after a disjoint gap opens a new run. -/
def inRun (now openStart : Nat) (cur : Activity) : List Activity → List (Nat × Nat)
  | [] => [(openStart, cur.end_.getD now)]
  | b :: rest =>
    if b.is_following cur then
      if b.flags.is_sharing_screen then inRun now openStart b rest
      else (openStart, b.start) :: scanRuns now rest
    else
      if b.flags.is_sharing_screen then
        (openStart, cur.end_.getD now) :: inRun now b.start b rest
      else (openStart, cur.end_.getD now) :: scanRuns now rest

end

/-- Map a run, given as a pair of instants, to a rendered section. -/
def secOfRun (start : Nat) (d : ℚ) (pr : Nat × Nat) : StreamingSection :=
  { start_ratio := rat start d pr.1, end_ratio := rat start d pr.2 }

/-- The auto-scale target exactly as the claim words it: the smallest frame
from the ordered set strictly greater than the duration, and if none exists,
`created_at + ceil(days) · 24 h`. -/
def claimAutoScale (start end_ : Nat) : Nat :=
  let duration := end_ - start
  match (Transformer.FRAMES.filter (fun frame => decide (duration < frame))).min? with
  | some frame => start + frame
  | none => start + 86400 * ((duration + 86399) / 86400)

/-! ## Helper lemmas -/

lemma getLast?_append_pair (l : List Activity) (a b : Activity) :
    (l ++ [a, b]).getLast? = some b := by
  have h : l ++ [a, b] = (l ++ [a]) ++ [b] := by simp
  rw [h, List.getLast?_concat]

/-! ## Claim C6 — `Participant::disconnect` -/

/-- Claim C6 (amended): `disconnect(now)` seals the open tail at `now`; it
fails with `NoActiveActivity` when the history is empty, and with
`AlreadyEnded` (not `NoActiveActivity` as claimed) when the tail is already
sealed. -/
theorem c6_disconnect_amended :
    (∀ (p : Participant) (now : Nat) (last : Activity),
        p.history.getLast? = some last → last.end_ = none →
        p.disconnect now =
          .ok { p with history := p.history.dropLast ++ [{ last with end_ := some now }] }) ∧
    (∀ (p : Participant) (now : Nat), p.history = [] →
        p.disconnect now = .error .NoActiveActivity) ∧
    (∀ (p : Participant) (now : Nat) (last : Activity),
        p.history.getLast? = some last → last.end_.isSome = true →
        p.disconnect now = .error .AlreadyEnded) := by
  refine ⟨?_, ?_, ?_⟩
  · intro p now last hl he
    simp [Participant.disconnect, hl, Activity.end_at, he]
  · intro p now h
    simp [Participant.disconnect, h]
  · intro p now last hl he
    rcases Option.isSome_iff_exists.mp he with ⟨e, he2⟩
    simp [Participant.disconnect, hl, Activity.end_at, he2]

def c6_flags : VoiceStateFlags := ⟨false, false, false⟩

def c6_p : Participant :=
  { user_id := 1, name := "alice", face := "url",
    history := [{ start := 0, end_ := some 5, flags := c6_flags }] }

/-- Claim C6 counterexample: on a participant whose tail activity is already
sealed, `disconnect` fails with `AlreadyEnded`, not with `NoActiveActivity`
as the claim states. -/
theorem c6_disconnect_sealed_counterexample :
    c6_p.disconnect 6 = .error .AlreadyEnded ∧
      ActivityError.AlreadyEnded ≠ ActivityError.NoActiveActivity := by
  exact ⟨rfl, by decide⟩

def c6_open_p : Participant :=
  { user_id := 1, name := "alice", face := "url",
    history := [{ start := 0, end_ := none, flags := c6_flags }] }

/-- Witness for `c6_disconnect_amended` at concrete inputs. -/
theorem c6_disconnect_amended_witness :
    c6_open_p.disconnect 7 =
        .ok { c6_open_p with history := [{ start := 0, end_ := some 7, flags := c6_flags }] } ∧
      (Participant.new 2 "b" "v").disconnect 3 = .error .NoActiveActivity ∧
      c6_p.disconnect 6 = .error .AlreadyEnded := by
  refine ⟨?_, ?_, ?_⟩
  · have h := c6_disconnect_amended.1 c6_open_p 7
      { start := 0, end_ := none, flags := c6_flags } rfl rfl
    simpa [c6_open_p] using h
  · exact c6_disconnect_amended.2.1 (Participant.new 2 "b" "v") 3 rfl
  · exact c6_disconnect_amended.2.2 c6_p 6 { start := 0, end_ := some 5, flags := c6_flags } rfl rfl

/-! ## Claim C3 — `Participant::update` -/

/-- Claim C3: `update(now, flags)` fails with `NoActiveActivity` when the
participant is disconnected (empty history or sealed tail); when the open
tail's flags equal `flags` it succeeds with the participant unchanged; the
result of any successful `update` is a fixed point of the same `update`
(idempotence); otherwise it seals the tail at `now` and appends a fresh open
activity starting at `now` with the new flags, the two being adjacent. -/
theorem c3_update_behavior :
    (∀ (p : Participant) (now : Nat) (flags : VoiceStateFlags),
        (p.history = [] ∨
          ∃ last, p.history.getLast? = some last ∧ last.end_.isSome = true) →
        p.update now flags = .error .NoActiveActivity) ∧
    (∀ (p : Participant) (now : Nat) (flags : VoiceStateFlags) (last : Activity),
        p.history.getLast? = some last → last.end_ = none → last.flags = flags →
        p.update now flags = .ok p) ∧
    (∀ (p p' : Participant) (now : Nat) (flags : VoiceStateFlags),
        p.update now flags = .ok p' → p'.update now flags = .ok p') ∧
    (∀ (p : Participant) (now : Nat) (flags : VoiceStateFlags) (last : Activity),
        p.history.getLast? = some last → last.end_ = none → last.flags ≠ flags →
        p.update now flags =
            .ok { p with history := p.history.dropLast ++
                    [{ last with end_ := some now }, Activity.start_at now flags] } ∧
          adjOK { last with end_ := some now } (Activity.start_at now flags)) := by
  refine ⟨?_, ?_, ?_, ?_⟩
  · intro p now flags h
    rcases h with h | ⟨last, hl, hs⟩
    · simp [Participant.update, h]
    · rcases Option.isSome_iff_exists.mp hs with ⟨e, he⟩
      simp [Participant.update, hl, Activity.is_ongoing, he]
  · intro p now flags last hl he hf
    simp [Participant.update, hl, Activity.is_ongoing, he, hf]
  · intro p p' now flags h
    cases hl : p.history.getLast? with
    | none => simp [Participant.update, hl] at h
    | some last =>
      by_cases hon : last.is_ongoing = true
      · by_cases hbe : (last.flags == flags) = true
        · rw [Participant.update, hl] at h
          simp [hon, hbe] at h
          subst h
          rw [Participant.update, hl]
          simp [hon, hbe]
        · have hne : last.end_ = none := by
            simpa [Activity.is_ongoing, Option.isNone_iff_eq_none] using hon
          rw [Participant.update, hl] at h
          simp [hon, hbe, Activity.end_at, hne] at h
          have hgl : p'.history.getLast? = some (Activity.start_at now flags) := by
            rw [← h]
            exact getLast?_append_pair _ _ _
          rw [Participant.update, hgl]
          simp [Activity.is_ongoing, Activity.start_at]
      · have hon2 : last.is_ongoing = false := by
          revert hon; cases last.is_ongoing <;> simp
        rw [Participant.update, hl] at h
        simp [hon2] at h
  · intro p now flags last hl he hf
    have hbe : (last.flags == flags) = false := by
      simpa using hf
    constructor
    · simp [Participant.update, hl, Activity.is_ongoing, he, hbe, Activity.end_at]
    · simp [adjOK, Activity.start_at]

def c3_f0 : VoiceStateFlags := ⟨false, false, false⟩

def c3_f1 : VoiceStateFlags := ⟨true, false, false⟩

def c3_popen : Participant :=
  { user_id := 1, name := "n", face := "f",
    history := [{ start := 0, end_ := none, flags := c3_f0 }] }

def c3_pafter : Participant :=
  { user_id := 1, name := "n", face := "f",
    history := [{ start := 0, end_ := some 5, flags := c3_f0 },
                { start := 5, end_ := none, flags := c3_f1 }] }

/-- Witness for `c3_update_behavior` at concrete inputs. -/
theorem c3_update_behavior_witness :
    (Participant.new 1 "n" "f").update 3 c3_f0 = .error .NoActiveActivity ∧
      c3_popen.update 5 c3_f0 = .ok c3_popen ∧
      c3_pafter.update 5 c3_f1 = .ok c3_pafter ∧
      c3_popen.update 5 c3_f1 =
        .ok { c3_popen with
                history := [{ start := 0, end_ := some 5, flags := c3_f0 },
                            Activity.start_at 5 c3_f1] } := by
  refine ⟨?_, ?_, ?_, ?_⟩
  · exact c3_update_behavior.1 (Participant.new 1 "n" "f") 3 c3_f0 (Or.inl rfl)
  · exact c3_update_behavior.2.1 c3_popen 5 c3_f0
      { start := 0, end_ := none, flags := c3_f0 } rfl rfl rfl
  · exact c3_update_behavior.2.2.1 c3_popen c3_pafter 5 c3_f1 rfl
  · have h := (c3_update_behavior.2.2.2 c3_popen 5 c3_f1
      { start := 0, end_ := none, flags := c3_f0 } rfl rfl (by decide)).1
    simpa [c3_popen] using h

/-! ## Claims C9 and C7 — `Room` handlers -/

lemma updateFirst_none_iff (pred : Participant → Bool)
    (f : Participant → Except ActivityError Participant) :
    ∀ l : List Participant, updateFirst pred f l = none ↔ l.any pred = false := by
  intro l
  induction l with
  | nil => simp [updateFirst]
  | cons p rest ih =>
    by_cases hp : pred p
    · simp [updateFirst, hp]
    · simp [updateFirst, hp, ih]

/-- The participant identity (user id, display name, avatar url). -/
def pinfo (p : Participant) : Nat × String × String := (p.user_id, p.name, p.face)

lemma updateFirst_ok_map {γ : Type} (pred : Participant → Bool)
    (f : Participant → Except ActivityError Participant) (g : Participant → γ)
    (hf : ∀ p q, f p = .ok q → g q = g p) :
    ∀ (l ps : List Participant), updateFirst pred f l = some (.ok ps) →
      ps.map g = l.map g := by
  intro l
  induction l with
  | nil => intro ps h; simp [updateFirst] at h
  | cons p rest ih =>
    intro ps h
    by_cases hp : pred p
    · rw [updateFirst, if_pos hp] at h
      cases hfp : f p with
      | error e => rw [hfp] at h; simp [Except.map] at h
      | ok q =>
        rw [hfp] at h
        simp [Except.map] at h
        rw [← h]
        simp [hf p q hfp]
    · rw [updateFirst, if_neg hp] at h
      cases hr : updateFirst pred f rest with
      | none => rw [hr] at h; simp at h
      | some res =>
        rw [hr] at h
        cases res with
        | error e => simp [Except.map] at h
        | ok l2 =>
          simp [Except.map] at h
          rw [← h]
          simp [ih l2 hr]

lemma connect_pinfo (now : Nat) (flags : VoiceStateFlags) :
    ∀ p q, p.connect now flags = .ok q → pinfo q = pinfo p := by
  intro p q h
  rw [Participant.connect] at h
  by_cases hc : p.is_connected
  · simp [hc] at h
  · simp [hc] at h
    rw [← h]
    rfl

/-- Claim C9: every `Room` handler that returns an error leaves the room —
participants (histories, names, avatar urls) and `expires_at` — unchanged. -/
theorem c9_error_leaves_room_unchanged :
    (∀ (r : Room) (now uid : Nat) (name face : String) (flags : VoiceStateFlags),
        (r.handle_connect now uid name face flags).1.isOk = false →
        (r.handle_connect now uid name face flags).2 = r) ∧
    (∀ (r : Room) (now uid : Nat),
        (r.handle_disconnect now uid).1.isOk = false →
        (r.handle_disconnect now uid).2 = r) ∧
    (∀ (r : Room) (now uid : Nat) (flags : VoiceStateFlags),
        (r.handle_update now uid flags).1.isOk = false →
        (r.handle_update now uid flags).2 = r) := by
  refine ⟨?_, ?_, ?_⟩
  · intro r now uid name face flags h
    cases hu : updateFirst (fun p => p.user_id == uid) (fun p => p.connect now flags)
        r.participants with
    | none =>
      rw [Room.handle_connect, hu] at h ⊢
      simp [Participant.connect, Participant.new, Participant.is_connected,
        Except.isOk, Except.toBool] at h
    | some res =>
      cases res with
      | error e => rw [Room.handle_connect, hu]
      | ok ps =>
        rw [Room.handle_connect, hu] at h
        simp [Except.isOk, Except.toBool] at h
  · intro r now uid h
    cases hu : updateFirst (fun p => p.user_id == uid) (fun p => p.disconnect now)
        r.participants with
    | none => rw [Room.handle_disconnect, hu]
    | some res =>
      cases res with
      | error e => rw [Room.handle_disconnect, hu]
      | ok ps =>
        rw [Room.handle_disconnect, hu] at h
        by_cases hs : Room.get_status ps = .Idle <;>
          simp [hs, Except.isOk, Except.toBool] at h
  · intro r now uid flags h
    cases hu : updateFirst (fun p => p.user_id == uid) (fun p => p.update now flags)
        r.participants with
    | none => rw [Room.handle_update, hu]
    | some res =>
      cases res with
      | error e => rw [Room.handle_update, hu]
      | ok ps =>
        rw [Room.handle_update, hu] at h
        simp [Except.isOk, Except.toBool] at h

def c9_flags : VoiceStateFlags := ⟨false, false, false⟩

def c9_room : Room :=
  { guild_id := 0, channel_id := 0, timestamp := 0, created_at := 0,
    participants := [{ user_id := 1, name := "a", face := "u",
                       history := [{ start := 0, end_ := none, flags := c9_flags }] }],
    expires_at := none }

/-- Witness for `c9_error_leaves_room_unchanged` at concrete failing calls. -/
theorem c9_error_leaves_room_unchanged_witness :
    (c9_room.handle_connect 5 1 "x" "y" c9_flags).2 = c9_room ∧
      (c9_room.handle_disconnect 5 2).2 = c9_room ∧
      (c9_room.handle_update 5 2 c9_flags).2 = c9_room := by
  refine ⟨?_, ?_, ?_⟩
  · exact c9_error_leaves_room_unchanged.1 c9_room 5 1 "x" "y" c9_flags rfl
  · exact c9_error_leaves_room_unchanged.2.1 c9_room 5 2 rfl
  · exact c9_error_leaves_room_unchanged.2.2 c9_room 5 2 c9_flags rfl

/-- Claim C7 (amended): `Room::handle_connect` never replaces the stored
display name or avatar url of an existing participant — the (user id, name,
face) triples of the room's participants are unchanged by a connect for a
known user and extended by `(uid, name, face)` only when the user is new. -/
theorem c7_connect_no_refresh_amended :
    ∀ (r : Room) (now uid : Nat) (name face : String) (flags : VoiceStateFlags),
      ((r.handle_connect now uid name face flags).2).participants.map pinfo =
        (if r.participants.any (fun p => p.user_id == uid) then
          r.participants.map pinfo
        else r.participants.map pinfo ++ [(uid, name, face)]) := by
  intro r now uid name face flags
  cases hu : updateFirst (fun p => p.user_id == uid) (fun p => p.connect now flags)
      r.participants with
  | none =>
    have hany : r.participants.any (fun p => p.user_id == uid) = false :=
      (updateFirst_none_iff _ _ _).mp hu
    rw [Room.handle_connect, hu]
    simp [hany, Participant.connect, Participant.new, Participant.is_connected, pinfo]
  | some res =>
    have hany : r.participants.any (fun p => p.user_id == uid) = true := by
      by_contra hc
      have hfalse : r.participants.any (fun p => p.user_id == uid) = false := by
        revert hc; cases r.participants.any (fun p => p.user_id == uid) <;> simp
      rw [← updateFirst_none_iff (fun p => p.user_id == uid)
        (fun p => p.connect now flags)] at hfalse
      rw [hu] at hfalse
      exact Option.noConfusion hfalse
    cases res with
    | error e =>
      rw [Room.handle_connect, hu]
      simp [hany]
    | ok ps =>
      have hmap := updateFirst_ok_map (fun p => p.user_id == uid)
        (fun p => p.connect now flags) pinfo (connect_pinfo now flags) r.participants ps hu
      rw [Room.handle_connect, hu]
      simp [hany, hmap]

def c7_flags : VoiceStateFlags := ⟨false, false, false⟩

def c7_room : Room :=
  { guild_id := 0, channel_id := 0, timestamp := 0, created_at := 0,
    participants := [{ user_id := 1, name := "old", face := "oldface",
                       history := [{ start := 0, end_ := some 5, flags := c7_flags }] }],
    expires_at := some 65 }

/-- Claim C7 counterexample: reconnecting user 1 with a new display name and
avatar url succeeds, yet the stored name and avatar url keep their original
values — the source's `handle_connect` never writes `name`/`face` for an
existing participant. -/
theorem c7_connect_refresh_counterexample :
    (c7_room.handle_connect 10 1 "new" "newface" c7_flags).1 = .ok () ∧
      ((c7_room.handle_connect 10 1 "new" "newface" c7_flags).2).participants.map
          (fun p => p.name) = ["old"] ∧
      ((c7_room.handle_connect 10 1 "new" "newface" c7_flags).2).participants.map
          (fun p => p.face) = ["oldface"] ∧
      ("old" : String) ≠ "new" ∧ ("oldface" : String) ≠ "newface" := by
  exact ⟨rfl, rfl, rfl, by decide, by decide⟩

/-! ## Claim C1 — `send_room_report` and the tracker -/

def c1_room : Report.RoomDTO :=
  { created_at := 0, timestamp := 0, channel_id := 5,
    participants := [{ user_id := 3, name := "carol", face := "url",
                       history := [{ start := 0, end_ := some 5,
                                     flags := ⟨false, false, false⟩ }] }] }

def c1_tracker : Tracker := { tracks := [(5, { message_id := 77, last_updated_at := 100 })] }

/-- Claim C1 counterexample: channel 5's track was refreshed at 100 and the
call runs at `now = 110` — the claim's rate-limited scenario, in which no RPC
may be issued (and, at a stale track, only an edit-message RPC may be).  The
program's `send_room_report` has no `ongoing` parameter, never consults the
tracker, and issues a send-message RPC here: the action is `send`, which is
neither the claimed silent drop nor an edit of tracked message 77, and no
code path removes the track. -/
theorem c1_send_room_report_counterexample :
    (Report.send_room_report (fun _ => .ok ⟨0, 0, 0, 0⟩) (fun _ => .ok 0) true ""
        110 110 c1_room).1 = .send ∧
      (Report.send_room_report (fun _ => .ok ⟨0, 0, 0, 0⟩) (fun _ => .ok 0) true ""
          110 110 c1_room).2 = .ok () ∧
      c1_tracker.get_track c1_room.channel_id
        = some { message_id := 77, last_updated_at := 100 } ∧
      RpcAction.send ≠ RpcAction.no_rpc ∧
      RpcAction.send ≠ RpcAction.edit 77 := by
  exact ⟨rfl, rfl, rfl, by decide, by decide⟩

/-- Claim C1 (amended): `send_room_report` has no `ongoing` flag and no access
to the tracker; whenever timeline building and rendering succeed it issues an
unconditional send-message RPC, regardless of any track's age; it issues no
RPC exactly when building or rendering fails; and it never issues an
edit-message RPC. -/
theorem c1_send_room_report_amended :
    (∀ (fetch : Nat → Except String Report.EntryVisual)
        (render : Report.Timeline → Except Report.ReportServiceError Nat)
        (rpc_ok : Bool) (rpc_err : String) (now now_timestamp : Nat)
        (room : Report.RoomDTO) (timeline : Report.Timeline),
        Report.create_timeline fetch now now_timestamp room = .ok timeline →
        (render timeline).isOk = true →
        (Report.send_room_report fetch render rpc_ok rpc_err now now_timestamp room).1
          = .send) ∧
    (∀ (fetch : Nat → Except String Report.EntryVisual)
        (render : Report.Timeline → Except Report.ReportServiceError Nat)
        (rpc_ok : Bool) (rpc_err : String) (now now_timestamp : Nat)
        (room : Report.RoomDTO) (e : Report.ReportServiceError),
        Report.create_timeline fetch now now_timestamp room = .error e →
        Report.send_room_report fetch render rpc_ok rpc_err now now_timestamp room
          = (.no_rpc, .error e)) ∧
    (∀ (fetch : Nat → Except String Report.EntryVisual)
        (render : Report.Timeline → Except Report.ReportServiceError Nat)
        (rpc_ok : Bool) (rpc_err : String) (now now_timestamp : Nat)
        (room : Report.RoomDTO) (timeline : Report.Timeline)
        (e : Report.ReportServiceError),
        Report.create_timeline fetch now now_timestamp room = .ok timeline →
        render timeline = .error e →
        Report.send_room_report fetch render rpc_ok rpc_err now now_timestamp room
          = (.no_rpc, .error e)) ∧
    (∀ (fetch : Nat → Except String Report.EntryVisual)
        (render : Report.Timeline → Except Report.ReportServiceError Nat)
        (rpc_ok : Bool) (rpc_err : String) (now now_timestamp : Nat)
        (room : Report.RoomDTO) (m : Nat),
        (Report.send_room_report fetch render rpc_ok rpc_err now now_timestamp room).1
          ≠ .edit m) := by
  refine ⟨?_, ?_, ?_, ?_⟩
  · intro fetch render rpc_ok rpc_err now now_timestamp room timeline ht hr
    rw [Report.send_room_report, ht]
    cases h2 : render timeline with
    | error e => rw [h2] at hr; simp [Except.isOk, Except.toBool] at hr
    | ok n => simp [h2]
  · intro fetch render rpc_ok rpc_err now now_timestamp room e ht
    rw [Report.send_room_report, ht]
  · intro fetch render rpc_ok rpc_err now now_timestamp room timeline e ht hr
    rw [Report.send_room_report, ht]
    dsimp only
    rw [hr]
  · intro fetch render rpc_ok rpc_err now now_timestamp room m
    rw [Report.send_room_report]
    cases h1 : Report.create_timeline fetch now now_timestamp room with
    | error e => simp
    | ok timeline =>
      cases h2 : render timeline with
      | error e => simp [h2]
      | ok n => simp [h2]

/-- Witness for `c1_send_room_report_amended` at concrete calls on `c1_room`:
all-success issues a send, a failing visual fetch or a failing render issues
nothing, and the all-success action is not an edit. -/
theorem c1_send_room_report_amended_witness :
    (Report.send_room_report (fun _ => .ok ⟨0, 0, 0, 0⟩) (fun _ => .ok 0) true ""
        110 110 c1_room).1 = .send ∧
      Report.send_room_report (fun _ => .error "network") (fun _ => .ok 0) true ""
          110 110 c1_room = (.no_rpc, .error (.GenericError "network")) ∧
      Report.send_room_report (fun _ => .ok ⟨0, 0, 0, 0⟩) (fun _ => .error .RenderingError)
          true "" 110 110 c1_room = (.no_rpc, .error .RenderingError) ∧
      (Report.send_room_report (fun _ => .ok ⟨0, 0, 0, 0⟩) (fun _ => .ok 0) true ""
          110 110 c1_room).1 ≠ .edit 77 := by
  refine ⟨?_, ?_, ?_, ?_⟩
  · exact c1_send_room_report_amended.1 (fun _ => .ok ⟨0, 0, 0, 0⟩) (fun _ => .ok 0)
      true "" 110 110 c1_room _ rfl rfl
  · exact c1_send_room_report_amended.2.1 (fun _ => .error "network") (fun _ => .ok 0)
      true "" 110 110 c1_room _ rfl
  · exact c1_send_room_report_amended.2.2.1 (fun _ => .ok ⟨0, 0, 0, 0⟩)
      (fun _ => .error .RenderingError) true "" 110 110 c1_room _ _ rfl rfl
  · exact c1_send_room_report_amended.2.2.2 (fun _ => .ok ⟨0, 0, 0, 0⟩) (fun _ => .ok 0)
      true "" 110 110 c1_room 77

/-! ## Claim C8 — visual failure during report building -/

lemma buildEntries_error_of_failure (fetch : Nat → Except String Report.EntryVisual)
    (created_at now terminated_at : Nat) :
    ∀ l : List Participant, (∃ p ∈ l, (fetch p.user_id).isOk = false) →
      ∃ msg, Report.buildEntries fetch created_at now terminated_at l
        = .error (.GenericError msg) := by
  intro l
  induction l with
  | nil => intro h; rcases h with ⟨p, hp, _⟩; simp at hp
  | cons p rest ih =>
    intro h
    cases hfp : fetch p.user_id with
    | error msg => exact ⟨msg, by rw [Report.buildEntries, hfp]⟩
    | ok v =>
      rcases h with ⟨q, hq, hqf⟩
      rcases List.mem_cons.mp hq with hq1 | hq2
      · rw [hq1, hfp] at hqf
        simp [Except.isOk, Except.toBool] at hqf
      · rcases ih ⟨q, hq2, hqf⟩ with ⟨msg, hmsg⟩
        refine ⟨msg, ?_⟩
        rw [Report.buildEntries, hfp, hmsg]
        rfl

lemma buildEntries_length_of_ok (fetch : Nat → Except String Report.EntryVisual)
    (created_at now terminated_at : Nat) :
    ∀ l : List Participant, (∀ p ∈ l, (fetch p.user_id).isOk = true) →
      ∃ entries, Report.buildEntries fetch created_at now terminated_at l = .ok entries ∧
        entries.length = l.length := by
  intro l
  induction l with
  | nil => intro _; exact ⟨[], rfl, rfl⟩
  | cons p rest ih =>
    intro h
    cases hfp : fetch p.user_id with
    | error msg =>
      have := h p (List.mem_cons_self p rest)
      rw [hfp] at this
      simp [Except.isOk, Except.toBool] at this
    | ok v =>
      rcases ih (fun q hq => h q (List.mem_cons_of_mem p hq)) with ⟨entries, he, hlen⟩
      have hres : Report.buildEntries fetch created_at now terminated_at (p :: rest)
          = .ok ({ avatar := v.avatar
                   voice_sections := Report.convert_to_voice_sections created_at now
                     terminated_at p.history
                   streaming_sections := Report.convert_to_streaming_sections created_at now
                     terminated_at p.history
                   active_color := v.active_color
                   inactive_color := v.inactive_color
                   streaming_color := v.streaming_color } :: entries) := by
        rw [Report.buildEntries, hfp, he]
        rfl
      exact ⟨_, hres, by simpa using hlen⟩

/-- Claim C8 (amended): a failure to build the visual for any participant
aborts the whole emission — `create_timeline` returns `GenericError`, no
participant is skipped individually and nothing is rendered; only when every
visual is available does the timeline carry one entry per participant. -/
theorem c8_visual_failure_amended :
    (∀ (fetch : Nat → Except String Report.EntryVisual) (now now_timestamp : Nat)
        (room : Report.RoomDTO) (p : Participant),
        p ∈ room.participants → (fetch p.user_id).isOk = false →
        ∃ msg, Report.create_timeline fetch now now_timestamp room
          = .error (.GenericError msg)) ∧
    (∀ (fetch : Nat → Except String Report.EntryVisual) (now now_timestamp : Nat)
        (room : Report.RoomDTO),
        (∀ p ∈ room.participants, (fetch p.user_id).isOk = true) →
        ∃ t, Report.create_timeline fetch now now_timestamp room = .ok t ∧
          t.entries.length = room.participants.length) := by
  constructor
  · intro fetch now now_timestamp room p hp hpf
    rcases buildEntries_error_of_failure fetch room.created_at now
      (Report.calculate_auto_scale room.created_at now) room.participants
      ⟨p, hp, hpf⟩ with ⟨msg, hmsg⟩
    refine ⟨msg, ?_⟩
    rw [Report.create_timeline]
    rw [hmsg]
  · intro fetch now now_timestamp room h
    rcases buildEntries_length_of_ok fetch room.created_at now
      (Report.calculate_auto_scale room.created_at now) room.participants h with
      ⟨entries, he, hlen⟩
    have hres : Report.create_timeline fetch now now_timestamp room
        = .ok { created_at := room.created_at
                terminated_at := Report.calculate_auto_scale room.created_at now
                created_timestamp := room.timestamp
                terminated_timestamp := now_timestamp
                indicator := some now
                entries := entries
                tick := Report.choose_suitable_tics
                  (Report.calculate_auto_scale room.created_at now - room.created_at) } := by
      rw [Report.create_timeline]
      rw [he]
    exact ⟨_, hres, by simpa using hlen⟩

def c8_flags : VoiceStateFlags := ⟨false, false, false⟩

def c8_fetch : Nat → Except String Report.EntryVisual := fun u =>
  if u = 1 then .error "network" else .ok ⟨0, 0, 0, 0⟩

def c8_room : Report.RoomDTO :=
  { created_at := 0, timestamp := 0, channel_id := 0,
    participants :=
      [{ user_id := 1, name := "a", face := "fa",
         history := [{ start := 0, end_ := some 5, flags := c8_flags }] },
       { user_id := 2, name := "b", face := "fb",
         history := [{ start := 0, end_ := some 5, flags := c8_flags }] }] }

/-- Claim C8 counterexample: participant 1's visual fails while participant
2's succeeds, yet the emission does not proceed for participant 2 — the
whole `create_timeline` call returns `GenericError` and no timeline (hence no
rendered report) exists at all. -/
theorem c8_visual_failure_counterexample :
    Report.create_timeline c8_fetch 30 30 c8_room = .error (.GenericError "network") ∧
      (c8_fetch 2).isOk = true := by
  exact ⟨rfl, rfl⟩

/-- Witness for `c8_visual_failure_amended` at the concrete two-participant
room. -/
theorem c8_visual_failure_amended_witness :
    (∃ msg, Report.create_timeline c8_fetch 30 30 c8_room
        = .error (.GenericError msg)) ∧
      (∃ t, Report.create_timeline (fun _ => .ok ⟨0, 0, 0, 0⟩) 30 30 c8_room = .ok t ∧
        t.entries.length = c8_room.participants.length) := by
  constructor
  · exact c8_visual_failure_amended.1 c8_fetch 30 30 c8_room
      { user_id := 1, name := "a", face := "fa",
        history := [{ start := 0, end_ := some 5, flags := c8_flags }] }
      (by simp [c8_room]) rfl
  · exact c8_visual_failure_amended.2 (fun _ => .ok ⟨0, 0, 0, 0⟩) 30 30 c8_room
      (fun p _ => rfl)

/-! ## Claim C10 — the transformer/report duplicates agree -/

lemma streamingLoop_eq_report (now start : Nat) (d : ℚ) :
    ∀ (l : List Activity) (run : Option Activity),
      Transformer.streamingLoop now start d run l = Report.streamingLoop now start d run l := by
  intro l
  induction l with
  | nil =>
    intro run
    cases run <;> rfl
  | cons cur rest ih =>
    intro run
    cases run with
    | none =>
      rw [Transformer.streamingLoop.eq_def, Report.streamingLoop.eq_def]
      by_cases hc : cur.flags.is_sharing_screen
      · simp only [hc, if_true]
        cases rest with
        | nil => simp [ih]
        | cons b rest2 =>
          by_cases hb : b.is_following cur
          · simp [hb, ih]
          · simp [hb, ih]
      · simp [hc, ih]
    | some s =>
      rw [Transformer.streamingLoop.eq_def, Report.streamingLoop.eq_def]
      by_cases hc : cur.flags.is_sharing_screen
      · simp only [hc, if_true]
        cases rest with
        | nil => simp [ih]
        | cons b rest2 =>
          by_cases hb : b.is_following cur
          · simp [hb, ih]
          · simp [hb, ih]
      · simp [hc, ih]

/-- Claim C10: the four functions duplicated between
`src/service/renderer/transformer.rs` and `src/service/report.rs` are
extensionally equal. -/
theorem c10_duplicated_functions_agree :
    (∀ start end_ : Nat,
        Transformer.calculate_auto_scale start end_ = Report.calculate_auto_scale start end_) ∧
    (∀ duration : Nat,
        Transformer.choose_suitable_tics duration = Report.choose_suitable_tics duration) ∧
    (∀ (start now end_ : Nat) (history : List Activity),
        Transformer.convert_to_voice_sections start now end_ history
          = Report.convert_to_voice_sections start now end_ history) ∧
    (∀ (start now end_ : Nat) (history : List Activity),
        Transformer.convert_to_streaming_sections start now end_ history
          = Report.convert_to_streaming_sections start now end_ history) := by
  refine ⟨?_, ?_, ?_, ?_⟩
  · intro start end_
    rfl
  · intro duration
    rfl
  · intro start now end_ history
    rfl
  · intro start now end_ history
    rw [Transformer.convert_to_streaming_sections, Report.convert_to_streaming_sections]
    exact streamingLoop_eq_report now start _ history none

/-! ## Claim C5 — auto-scale frame and tick selection -/

/-- On a list sorted by `key`, with a predicate upward closed along `key`
among the list's elements, `find?` returns the element with the least key
satisfying the predicate, and returns `none` exactly when no element
satisfies it. -/
lemma find_sorted_spec {α : Type} (key : α → Nat) (q : Nat → Bool) :
    ∀ L : List α,
      List.Pairwise (fun x y => key x ≤ key y) L →
      (∀ x ∈ L, ∀ y ∈ L, key x ≤ key y → q (key x) = true → q (key y) = true) →
      ((∀ x, L.find? (fun a => q (key a)) = some x →
          x ∈ L ∧ q (key x) = true ∧ ∀ y ∈ L, q (key y) = true → key x ≤ key y) ∧
        (L.find? (fun a => q (key a)) = none → ∀ y ∈ L, q (key y) = false)) := by
  intro L
  induction L with
  | nil => intro _ _; exact ⟨fun x h => by simp at h, fun _ y hy => by simp at hy⟩
  | cons a t ih =>
    intro hsort hmono
    have hst : List.Pairwise (fun x y => key x ≤ key y) t := (List.pairwise_cons.mp hsort).2
    have hat : ∀ y ∈ t, key a ≤ key y := (List.pairwise_cons.mp hsort).1
    have hmt : ∀ x ∈ t, ∀ y ∈ t, key x ≤ key y → q (key x) = true → q (key y) = true :=
      fun x hx y hy => hmono x (List.mem_cons_of_mem a hx) y (List.mem_cons_of_mem a hy)
    rcases ih hst hmt with ⟨ihsome, ihnone⟩
    by_cases hqa : q (key a) = true
    · constructor
      · intro x hx
        simp only [List.find?_cons, hqa] at hx
        cases hx
        refine ⟨List.mem_cons_self a t, hqa, ?_⟩
        intro y hy _
        rcases List.mem_cons.mp hy with h1 | h2
        · rw [h1]
        · exact hat y h2
      · intro hn
        simp [List.find?_cons, hqa] at hn
    · have hqa2 : q (key a) = false := by
        revert hqa; cases q (key a) <;> simp
      constructor
      · intro x hx
        simp only [List.find?_cons, hqa2] at hx
        rcases ihsome x hx with ⟨hmem, hqx, hleast⟩
        refine ⟨List.mem_cons_of_mem a hmem, hqx, ?_⟩
        intro y hy hqy
        rcases List.mem_cons.mp hy with h1 | h2
        · rw [h1] at hqy
          rw [hqy] at hqa2
          exact absurd hqa2 (by simp)
        · exact hleast y h2 hqy
      · intro hn
        simp only [List.find?_cons, hqa2] at hn
        intro y hy
        rcases List.mem_cons.mp hy with h1 | h2
        · rw [h1]; exact hqa2
        · exact ihnone hn y h2

/-- Claim C5 (amended): when some frame exceeds the duration,
`calculate_auto_scale` adds the smallest frame strictly greater than the
duration; when the duration reaches 24 h the fallback is
`24 h · (1 + floor(days))` — one full day beyond the last complete day, which
equals the claimed `ceil(days) · 24 h` except at exact multiples of 24 h.
`choose_suitable_tics` picks the smallest tick interval with
`duration / tick < 10` and falls back to 24 h; for `now = created_at + 70 s`
the frame is 5 min and the tick 1 min. -/
theorem c5_auto_scale_tick_amended :
    (∀ start end_ : Nat, end_ - start < 86400 →
        (Transformer.calculate_auto_scale start end_ - start) ∈ Transformer.FRAMES ∧
          end_ - start < Transformer.calculate_auto_scale start end_ - start ∧
          (∀ f ∈ Transformer.FRAMES, end_ - start < f →
            Transformer.calculate_auto_scale start end_ - start ≤ f)) ∧
    (∀ start end_ : Nat, 86400 ≤ end_ - start →
        Transformer.calculate_auto_scale start end_
          = start + 86400 * (1 + (end_ - start) / 86400)) ∧
    (∀ duration : Nat, (∃ t ∈ Transformer.TICKS, duration / t.interval < 10) →
        Transformer.choose_suitable_tics duration ∈ Transformer.TICKS ∧
          duration / (Transformer.choose_suitable_tics duration).interval < 10 ∧
          (∀ t ∈ Transformer.TICKS, duration / t.interval < 10 →
            (Transformer.choose_suitable_tics duration).interval ≤ t.interval)) ∧
    (∀ duration : Nat, (∀ t ∈ Transformer.TICKS, ¬ duration / t.interval < 10) →
        Transformer.choose_suitable_tics duration = Tick.hours_grain 24) ∧
    (Transformer.calculate_auto_scale 0 70 = 300 ∧
      Transformer.choose_suitable_tics 300 = Tick.mins_grain 1) := by
  have hframe_pair : List.Pairwise (fun x y : Nat => x ≤ y) Transformer.FRAMES := by decide
  have htick_pair : List.Pairwise
      (fun x y : Tick => x.interval ≤ y.interval) Transformer.TICKS := by decide
  have htick_pos : ∀ t ∈ Transformer.TICKS, 0 < t.interval := by decide
  have hframe_le : ∀ f ∈ Transformer.FRAMES, f ≤ 86400 := by decide
  refine ⟨?_, ?_, ?_, ?_, by decide, by decide⟩
  · intro start end_ hd
    have hmono : ∀ x ∈ Transformer.FRAMES, ∀ y ∈ Transformer.FRAMES,
        (fun n : Nat => n) x ≤ (fun n : Nat => n) y →
        decide (end_ - start < x) = true → decide (end_ - start < y) = true := by
      intro x _ y _ hxy hx
      have hxy2 : x ≤ y := hxy
      simp only [decide_eq_true_eq] at hx ⊢
      omega
    rcases find_sorted_spec (fun n : Nat => n) (fun m => decide (end_ - start < m))
      Transformer.FRAMES hframe_pair hmono with ⟨hsome, hnone⟩
    cases hf : Transformer.FRAMES.find? (fun a => decide (end_ - start < a)) with
    | none =>
      exfalso
      have h86 := hnone hf 86400 (by decide)
      simp only [decide_eq_false_iff_not] at h86
      omega
    | some f =>
      rcases hsome f hf with ⟨hmem, hqf, hleast⟩
      have hcalc : Transformer.calculate_auto_scale start end_ = start + f := by
        rw [Transformer.calculate_auto_scale]
        simp only [hf]
      simp only [decide_eq_true_eq] at hqf
      have hsub : start + f - start = f := by omega
      refine ⟨?_, ?_, ?_⟩
      · rw [hcalc, hsub]; exact hmem
      · rw [hcalc, hsub]; exact hqf
      · intro g hg hgd
        rw [hcalc, hsub]
        exact hleast g hg (by simpa using hgd)
  · intro start end_ hd
    have hf : Transformer.FRAMES.find? (fun a => decide (end_ - start < a)) = none := by
      rw [List.find?_eq_none]
      intro x hx
      have := hframe_le x hx
      simp only [decide_eq_true_eq]
      omega
    rw [Transformer.calculate_auto_scale]
    simp only [hf]
    have h24 : (24 * 60 * 60 : Nat) = 86400 := by norm_num
    rw [h24]
    ring
  · intro duration hex
    have hmono : ∀ x ∈ Transformer.TICKS, ∀ y ∈ Transformer.TICKS,
        Tick.interval x ≤ Tick.interval y →
        decide (duration / x.interval < 10) = true →
        decide (duration / y.interval < 10) = true := by
      intro x hx y _ hxy hq
      simp only [decide_eq_true_eq] at hq ⊢
      have hdiv : duration / y.interval ≤ duration / x.interval :=
        Nat.div_le_div_left hxy (htick_pos x hx)
      omega
    rcases find_sorted_spec Tick.interval (fun m => decide (duration / m < 10))
      Transformer.TICKS htick_pair hmono with ⟨hsome, hnone⟩
    cases hf : Transformer.TICKS.find? (fun a => decide (duration / a.interval < 10)) with
    | none =>
      exfalso
      rcases hex with ⟨t, ht, htq⟩
      have := hnone hf t ht
      simp only [decide_eq_false_iff_not] at this
      exact this htq
    | some t =>
      rcases hsome t hf with ⟨hmem, hqt, hleast⟩
      have hcalc : Transformer.choose_suitable_tics duration = t := by
        rw [Transformer.choose_suitable_tics]
        simp only [hf]
      simp only [decide_eq_true_eq] at hqt
      refine ⟨hcalc ▸ hmem, hcalc ▸ hqt, ?_⟩
      intro u hu huq
      rw [hcalc]
      exact hleast u hu (by simpa using huq)
  · intro duration hall
    have hf : Transformer.TICKS.find? (fun a => decide (duration / a.interval < 10)) = none := by
      rw [List.find?_eq_none]
      intro x hx
      simp only [decide_eq_true_eq]
      exact hall x hx
    rw [Transformer.choose_suitable_tics]
    simp only [hf]

/-- Claim C5 counterexample: at a duration of exactly 24 h no frame is
strictly greater, and the source's fallback yields `created_at + 48 h`, not
the claimed `created_at + ceil(days) · 24 h = created_at + 24 h`
(`claimAutoScale` is the claim's own formula). -/
theorem c5_auto_scale_ceil_counterexample :
    Transformer.calculate_auto_scale 0 86400 = 172800 ∧
      claimAutoScale 0 86400 = 86400 ∧
      Transformer.calculate_auto_scale 0 86400 ≠ claimAutoScale 0 86400 := by
  refine ⟨by decide, by decide, by decide⟩

/-- Witness for `c5_auto_scale_tick_amended` at concrete durations. -/
theorem c5_auto_scale_tick_amended_witness :
    (Transformer.calculate_auto_scale 0 70 - 0) ∈ Transformer.FRAMES ∧
      (70 : Nat) - 0 < Transformer.calculate_auto_scale 0 70 - 0 ∧
      Transformer.calculate_auto_scale 0 172800 = 0 + 86400 * (1 + (172800 - 0) / 86400) ∧
      Transformer.choose_suitable_tics 300 ∈ Transformer.TICKS ∧
      (300 : Nat) / (Transformer.choose_suitable_tics 300).interval < 10 ∧
      Transformer.choose_suitable_tics 864000 = Tick.hours_grain 24 := by
  refine ⟨(c5_auto_scale_tick_amended.1 0 70 (by decide)).1,
    (c5_auto_scale_tick_amended.1 0 70 (by decide)).2.1,
    c5_auto_scale_tick_amended.2.1 0 172800 (by decide),
    (c5_auto_scale_tick_amended.2.2.1 300 ⟨Tick.mins_grain 1, by decide, by decide⟩).1,
    (c5_auto_scale_tick_amended.2.2.1 300 ⟨Tick.mins_grain 1, by decide, by decide⟩).2.1,
    c5_auto_scale_tick_amended.2.2.2.1 864000 (by decide)⟩

/-! ## Claim C2 — the history invariant -/

lemma boundedBy_mono {h : List Activity} {t t' : Nat} (htt : t ≤ t')
    (hb : boundedBy h t) : boundedBy h t' := by
  intro a ha
  rcases hb a ha with ⟨h1, h2⟩
  exact ⟨Nat.le_trans h1 htt, fun e he => Nat.le_trans (h2 e he) htt⟩

lemma chain_split_last {h : List Activity} {last : Activity}
    (hch : List.Chain' adjOK h) (hl : h.getLast? = some last) :
    List.Chain' adjOK h.dropLast ∧ ∀ x ∈ h.dropLast.getLast?, adjOK x last := by
  have heq : h.dropLast ++ [last] = h :=
    List.dropLast_append_getLast? last (by simp [hl])
  rw [← heq] at hch
  rcases List.chain'_append.mp hch with ⟨h1, _, h3⟩
  exact ⟨h1, fun x hx => h3 x hx last rfl⟩

lemma chain_join_last {init : List Activity} {a : Activity}
    (hch : List.Chain' adjOK init) (hlink : ∀ x ∈ init.getLast?, adjOK x a) :
    List.Chain' adjOK (init ++ [a]) :=
  List.Chain'.append hch (List.chain'_singleton a) (by
    intro x hx y hy
    simp only [List.head?_cons, Option.mem_def, Option.some_inj] at hy
    rw [← hy]
    exact hlink x hx)

lemma chain_adjOK_dropLast_isSome :
    ∀ h : List Activity, List.Chain' adjOK h →
      ∀ a ∈ h.dropLast, a.end_.isSome = true := by
  intro h
  induction h with
  | nil => intro _ a ha; simp at ha
  | cons x t ih =>
    intro hch a ha
    cases t with
    | nil => simp at ha
    | cons y t2 =>
      rcases List.chain'_cons.mp hch with ⟨hxy, htail⟩
      rw [List.dropLast_cons₂] at ha
      rcases List.mem_cons.mp ha with h1 | h2
      · rw [h1]; exact hxy.1
      · exact ih htail a h2

/-- A single call preserves the adjacency chain and bounds all recorded
instants by the call's `now`, provided the prior history was chained and
bounded by some `t ≤ now`. -/
lemma applyOp_preserves (p : Participant) (op : POp) (t : Nat)
    (hch : List.Chain' adjOK p.history) (hb : boundedBy p.history t)
    (ht : t ≤ op.time) :
    List.Chain' adjOK (p.applyOp op).history ∧
      boundedBy (p.applyOp op).history op.time := by
  have hbnow : boundedBy p.history op.time := boundedBy_mono ht hb
  cases op with
  | connect now flags =>
    simp only [POp.time] at ht hbnow
    by_cases hc : p.is_connected
    · simp only [Participant.applyOp, Participant.connect, hc, if_true]
      exact ⟨hch, hbnow⟩
    · simp only [Participant.applyOp, Participant.connect, hc, if_false]
      constructor
      · refine chain_join_last hch ?_
        intro x hx
        have hxl : p.history.getLast? = some x := hx
        have hxmem : x ∈ p.history := List.mem_of_getLast?_eq_some hxl
        have hpc : p.is_connected = x.is_ongoing := by
          simp [Participant.is_connected, hxl]
        have hcf : p.is_connected = false := by
          revert hc; cases p.is_connected <;> simp
        have hopen : x.is_ongoing = false := by
          rw [← hpc]; exact hcf
        have hsome : x.end_.isSome = true := by
          revert hopen
          rw [Activity.is_ongoing]
          cases x.end_ <;> simp
        rcases Option.isSome_iff_exists.mp hsome with ⟨e, he⟩
        refine ⟨hsome, ?_⟩
        rw [he]
        simpa [Activity.start_at] using (hbnow x hxmem).2 e he
      · intro a ha
        rcases List.mem_append.mp ha with h1 | h2
        · exact hbnow a h1
        · simp only [List.mem_singleton] at h2
          rw [h2]
          exact ⟨Nat.le_refl _, by simp [Activity.start_at]⟩
  | disconnect now =>
    simp only [POp.time] at ht hbnow
    cases hl : p.history.getLast? with
    | none =>
      simp only [Participant.applyOp, Participant.disconnect, hl]
      exact ⟨hch, hbnow⟩
    | some last =>
      cases hle : last.end_ with
      | some e =>
        simp only [Participant.applyOp, Participant.disconnect, hl, Activity.end_at, hle]
        exact ⟨hch, hbnow⟩
      | none =>
        simp only [Participant.applyOp, Participant.disconnect, hl, Activity.end_at, hle]
        rcases chain_split_last hch hl with ⟨hinit, hlink⟩
        have hlastmem : last ∈ p.history := List.mem_of_getLast?_eq_some hl
        constructor
        · refine chain_join_last hinit ?_
          intro x hx
          rcases hlink x hx with ⟨hs, hle2⟩
          exact ⟨hs, hle2⟩
        · intro a ha
          rcases List.mem_append.mp ha with h1 | h2
          · exact hbnow a (List.dropLast_subset _ h1)
          · simp only [List.mem_singleton] at h2
            rw [h2]
            refine ⟨(hbnow last hlastmem).1, ?_⟩
            intro e he
            simp only at he
            rcases Option.some_inj.mp he with rfl
            exact Nat.le_refl _
  | update now flags =>
    simp only [POp.time] at ht hbnow
    cases hl : p.history.getLast? with
    | none =>
      simp only [Participant.applyOp, Participant.update, hl]
      exact ⟨hch, hbnow⟩
    | some last =>
      by_cases hon : last.is_ongoing = false
      · simp only [Participant.applyOp, Participant.update, hl, hon, if_true]
        exact ⟨hch, hbnow⟩
      · have hon2 : last.is_ongoing = true := by
          revert hon; cases last.is_ongoing <;> simp
        have hle : last.end_ = none := by
          revert hon2; rw [Activity.is_ongoing]; cases last.end_ <;> simp
        by_cases hbe : (last.flags == flags) = true
        · simp only [Participant.applyOp, Participant.update, hl, hon2, hbe]
          simp only [Bool.true_eq_false, if_false, if_true]
          exact ⟨hch, hbnow⟩
        · have hbe2 : (last.flags == flags) = false := by
            revert hbe; cases last.flags == flags <;> simp
          simp only [Participant.applyOp, Participant.update, hl, hon2, hbe2,
            Activity.end_at, hle]
          simp only [Bool.true_eq_false, if_false]
          rcases chain_split_last hch hl with ⟨hinit, hlink⟩
          have hlastmem : last ∈ p.history := List.mem_of_getLast?_eq_some hl
          have happ : p.history.dropLast ++ [{ last with end_ := some now },
              Activity.start_at now flags]
              = (p.history.dropLast ++ [{ last with end_ := some now }])
                ++ [Activity.start_at now flags] := by simp
          constructor
          · rw [happ]
            refine chain_join_last ?_ ?_
            · refine chain_join_last hinit ?_
              intro x hx
              rcases hlink x hx with ⟨hs, hle2⟩
              exact ⟨hs, hle2⟩
            · intro x hx
              rw [List.getLast?_concat] at hx
              rcases Option.some_inj.mp hx with rfl
              exact ⟨rfl, by simp [Activity.start_at]⟩
          · intro a ha
            rcases List.mem_append.mp ha with h1 | h2
            · exact hbnow a (List.dropLast_subset _ h1)
            · rcases List.mem_cons.mp h2 with h3 | h4
              · rw [h3]
                refine ⟨(hbnow last hlastmem).1, ?_⟩
                intro e he
                rcases Option.some_inj.mp he with rfl
                exact Nat.le_refl _
              · simp only [List.mem_singleton] at h4
                rw [h4]
                exact ⟨Nat.le_refl _, by simp [Activity.start_at]⟩

lemma run_chain : ∀ (ops : List POp) (p : Participant) (t : Nat),
    List.Chain' adjOK p.history → boundedBy p.history t →
    List.Chain' (fun a b : Nat => a ≤ b) (t :: ops.map POp.time) →
    List.Chain' adjOK ((ops.foldl Participant.applyOp p).history) := by
  intro ops
  induction ops with
  | nil => intro p t hch _ _; simpa using hch
  | cons op rest ih =>
    intro p t hch hb hsort
    rcases List.chain'_cons.mp hsort with ⟨h1, h2⟩
    rcases applyOp_preserves p op t hch hb h1 with ⟨hch2, hb2⟩
    simpa using ih (p.applyOp op) op.time hch2 hb2 h2

/-- Claim C2: starting from a fresh participant, any sequence of
connect/disconnect/update calls with non-decreasing `now` arguments yields a
history in which every activity but the last is sealed (so at most one is
open, and it is the tail) and every consecutive pair satisfies
`a_i.end` set and `a_i.end ≤ a_{i+1}.start`. -/
theorem c2_history_invariant :
    ∀ (uid : Nat) (name face : String) (ops : List POp),
      List.Chain' (fun a b : Nat => a ≤ b) (ops.map POp.time) →
      (∀ a ∈ ((ops.foldl Participant.applyOp (Participant.new uid name face)).history).dropLast,
          a.end_.isSome = true) ∧
        List.Chain' adjOK ((ops.foldl Participant.applyOp (Participant.new uid name face)).history) := by
  intro uid name face ops hsort
  have hsort0 : List.Chain' (fun a b : Nat => a ≤ b) (0 :: ops.map POp.time) := by
    refine List.Chain'.cons' hsort ?_
    intro y _
    exact Nat.zero_le y
  have hch := run_chain ops (Participant.new uid name face) 0
    (by simp [Participant.new]) (by intro a ha; simp [Participant.new] at ha) hsort0
  exact ⟨chain_adjOK_dropLast_isSome _ hch, hch⟩

/-- Witness for `c2_history_invariant`: the mute-toggle scenario
connect(0) / update(10, muted) / update(25, unmuted) / disconnect(40). -/
theorem c2_history_invariant_witness :
    (∀ a ∈ (([POp.connect 0 ⟨false, false, false⟩, POp.update 10 ⟨true, false, false⟩,
          POp.update 25 ⟨false, false, false⟩, POp.disconnect 40].foldl Participant.applyOp
            (Participant.new 2 "bob" "url")).history).dropLast,
        a.end_.isSome = true) ∧
      List.Chain' adjOK (([POp.connect 0 ⟨false, false, false⟩,
          POp.update 10 ⟨true, false, false⟩, POp.update 25 ⟨false, false, false⟩,
          POp.disconnect 40].foldl Participant.applyOp
            (Participant.new 2 "bob" "url")).history) := by
  exact c2_history_invariant 2 "bob" "url"
    [POp.connect 0 ⟨false, false, false⟩, POp.update 10 ⟨true, false, false⟩,
     POp.update 25 ⟨false, false, false⟩, POp.disconnect 40]
    (by simp [POp.time])

/-! ## Claim C4 — streaming sections are the maximal streaming runs -/

/-- The head of `l` adjacently follows `cur` (vacuously false for `[]`: the
loop never carries an open run past the last activity). -/
def headFollows : List Activity → Activity → Prop
  | [], _ => False
  | b :: _, cur => b.is_following cur = true

lemma streamingLoop_spec (now start : Nat) (d : ℚ) :
    ∀ l : List Activity,
      (Transformer.streamingLoop now start d none l
          = (scanRuns now l).map (secOfRun start d)) ∧
      (∀ s cur : Activity, headFollows l cur →
          Transformer.streamingLoop now start d (some s) l
            = (inRun now s.start cur l).map (secOfRun start d)) := by
  intro l
  induction l with
  | nil =>
    constructor
    · rfl
    · intro s cur hf
      exact absurd hf (by simp [headFollows])
  | cons b rest ih =>
    obtain ⟨ihP, ihQ⟩ := ih
    constructor
    · by_cases hb : b.flags.is_sharing_screen
      · cases rest with
        | nil =>
          have e1 : Transformer.streamingLoop now start d none [b]
              = [{ start_ratio := rat start d b.start,
                   end_ratio := rat start d (b.end_.getD now) }] := by
            rw [Transformer.streamingLoop.eq_def]
            dsimp only
            rw [if_pos hb]
            rfl
          rw [e1]
          simp [scanRuns, inRun, hb, secOfRun]
        | cons c r2 =>
          by_cases hf : c.is_following b = true
          · have e1 : Transformer.streamingLoop now start d none (b :: c :: r2)
                = Transformer.streamingLoop now start d (some b) (c :: r2) := by
              rw [Transformer.streamingLoop.eq_def]
              dsimp only
              rw [if_pos hb, if_pos hf]
            have e2 : scanRuns now (b :: c :: r2) = inRun now b.start b (c :: r2) := by
              rw [scanRuns]
              rw [if_pos hb]
            rw [e1, e2, ihQ b b (by simpa [headFollows] using hf)]
          · have hfb : c.is_following b = false := by
              revert hf; cases c.is_following b <;> simp
            have e1 : Transformer.streamingLoop now start d none (b :: c :: r2)
                = { start_ratio := rat start d b.start,
                    end_ratio := rat start d (b.end_.getD now) } ::
                  Transformer.streamingLoop now start d none (c :: r2) := by
              rw [Transformer.streamingLoop.eq_def]
              dsimp only
              rw [if_pos hb, if_neg (by simp [hfb])]
            have e2 : scanRuns now (b :: c :: r2)
                = (b.start, b.end_.getD now) :: scanRuns now (c :: r2) := by
              by_cases hc : c.flags.is_sharing_screen <;>
                simp [scanRuns, inRun, hb, hfb, hc]
            rw [e1, e2, ihP]
            simp [secOfRun]
      · have e1 : Transformer.streamingLoop now start d none (b :: rest)
            = Transformer.streamingLoop now start d none rest := by
          rw [Transformer.streamingLoop.eq_def]
          dsimp only
          rw [if_neg (by simp [hb])]
        have e2 : scanRuns now (b :: rest) = scanRuns now rest := by
          rw [scanRuns]
          rw [if_neg (by simp [hb])]
        rw [e1, e2, ihP]
    · intro s cur hf0
      have hf0b : b.is_following cur = true := hf0
      by_cases hb : b.flags.is_sharing_screen
      · cases rest with
        | nil =>
          have e1 : Transformer.streamingLoop now start d (some s) [b]
              = [{ start_ratio := rat start d s.start,
                   end_ratio := rat start d (b.end_.getD now) }] := by
            rw [Transformer.streamingLoop.eq_def]
            dsimp only
            rw [if_pos hb]
            rfl
          rw [e1]
          simp [inRun, hb, hf0b, secOfRun]
        | cons c r2 =>
          by_cases hf : c.is_following b = true
          · have e1 : Transformer.streamingLoop now start d (some s) (b :: c :: r2)
                = Transformer.streamingLoop now start d (some s) (c :: r2) := by
              rw [Transformer.streamingLoop.eq_def]
              dsimp only
              rw [if_pos hb, if_pos hf]
            have e2 : inRun now s.start cur (b :: c :: r2)
                = inRun now s.start b (c :: r2) := by
              rw [inRun]
              rw [if_pos hf0b, if_pos hb]
            rw [e1, e2, ihQ s b (by simpa [headFollows] using hf)]
          · have hfb : c.is_following b = false := by
              revert hf; cases c.is_following b <;> simp
            have e1 : Transformer.streamingLoop now start d (some s) (b :: c :: r2)
                = { start_ratio := rat start d s.start,
                    end_ratio := rat start d (b.end_.getD now) } ::
                  Transformer.streamingLoop now start d none (c :: r2) := by
              rw [Transformer.streamingLoop.eq_def]
              dsimp only
              rw [if_pos hb, if_neg (by simp [hfb])]
            have e2 : inRun now s.start cur (b :: c :: r2)
                = (s.start, b.end_.getD now) :: scanRuns now (c :: r2) := by
              by_cases hc : c.flags.is_sharing_screen <;>
                simp [scanRuns, inRun, hb, hf0b, hfb, hc]
            rw [e1, e2, ihP]
            simp [secOfRun]
      · have e1 : Transformer.streamingLoop now start d (some s) (b :: rest)
            = { start_ratio := rat start d s.start,
                end_ratio := rat start d b.start } ::
              Transformer.streamingLoop now start d none rest := by
          rw [Transformer.streamingLoop.eq_def]
          dsimp only
          rw [if_neg (by simp [hb])]
        have e2 : inRun now s.start cur (b :: rest)
            = (s.start, b.start) :: scanRuns now rest := by
          rw [inRun]
          rw [if_pos hf0b, if_neg (by simp [hb])]
        rw [e1, e2, ihP]
        simp [secOfRun]

def s4_ops : List POp :=
  [POp.connect 0 ⟨false, false, true⟩, POp.update 20 ⟨true, false, true⟩,
   POp.update 30 ⟨false, false, false⟩]

def s4_history : List Activity :=
  (s4_ops.foldl Participant.applyOp (Participant.new 4 "dan" "url")).history

lemma s4_history_eq :
    s4_history =
      [{ start := 0, end_ := some 20, flags := ⟨false, false, true⟩ },
       { start := 20, end_ := some 30, flags := ⟨true, false, true⟩ },
       { start := 30, end_ := none, flags := ⟨false, false, false⟩ }] := by
  decide

/-- Claim C4 (amended): for any history satisfying the adjacency invariant the
computed streaming sections are exactly the maximal runs of adjacent
streaming activities (`scanRuns`/`inRun` transcribe the claim's opening and
closing rules), mapped to ratios; in scenario S4 evaluated at `now = 30`
(`terminated_at = 60`) there is one streaming section covering `[0, 30]`
(ratios `[0, 1/2]`), and **three** voice sections — `[0, 20]` Active,
`[20, 30]` Muted, and the zero-width `[30, 30]` Active section of the open
tail — not two as the claim states. -/
theorem c4_streaming_sections_amended :
    (∀ (start now end_ : Nat) (h : List Activity),
        List.Chain' adjOK h →
        Transformer.convert_to_streaming_sections start now end_ h
          = (scanRuns now h).map (secOfRun start ((end_ - start : Nat) : ℚ))) ∧
    Transformer.convert_to_streaming_sections 0 30 60 s4_history
        = [{ start_ratio := 0, end_ratio := 1/2 }] ∧
    Transformer.convert_to_voice_sections 0 30 60 s4_history
        = [{ start_ratio := 0, end_ratio := 1/3, fill_style := .Active },
           { start_ratio := 1/3, end_ratio := 1/2, fill_style := .Muted },
           { start_ratio := 1/2, end_ratio := 1/2, fill_style := .Active }] := by
  refine ⟨?_, ?_, ?_⟩
  · intro start now end_ h _
    rw [Transformer.convert_to_streaming_sections]
    exact (streamingLoop_spec now start _ h).1
  · rw [s4_history_eq, Transformer.convert_to_streaming_sections]
    norm_num [Transformer.streamingLoop, Activity.is_following, rat]
  · rw [s4_history_eq, Transformer.convert_to_voice_sections]
    norm_num [rat, FillStyle.from_flags]

/-- Claim C4 counterexample: in scenario S4 the code emits three voice
sections (one per activity, the open tail included as a zero-width section),
not the two the claim states. -/
theorem c4_s4_voice_sections_counterexample :
    (Transformer.convert_to_voice_sections 0 30 60 s4_history).length = 3 ∧
      (Transformer.convert_to_voice_sections 0 30 60 s4_history).length ≠ 2 := by
  rw [s4_history_eq]
  constructor
  · simp [Transformer.convert_to_voice_sections]
  · simp [Transformer.convert_to_voice_sections]

/-- Witness for `c4_streaming_sections_amended` on the S4 history, which
satisfies the adjacency invariant. -/
theorem c4_streaming_sections_amended_witness :
    Transformer.convert_to_streaming_sections 0 30 60 s4_history
        = (scanRuns 30 s4_history).map (secOfRun 0 ((60 - 0 : Nat) : ℚ)) := by
  have hch : List.Chain' adjOK s4_history := by
    rw [s4_history_eq]
    refine List.chain'_cons.mpr ⟨by decide, List.chain'_cons.mpr ⟨by decide, ?_⟩⟩
    exact List.chain'_singleton _
  exact c4_streaming_sections_amended.1 0 30 60 s4_history hch
